import Mathlib

/-!
# AF_Packet capture session (`src/af_packet/src/AF_Packet.cc`)

A shallow embedding of `AF_PacketSource`: the session object is a record of its
member variables, every member function is a function from the session (and the
answers of the operating system) to the new session together with the list of
outward effects it performed, in program order.

The ring consumer (`RX_Ring`, declared in `RX_Ring.h`) is not part of the
sources at hand; it is modelled from the specification of the ring consumer.
-/

namespace AFPacket

/-! ## Data model -/

/-- Frame header of the kernel ring (`struct tpacket3_hdr`), together with the
mapped bytes that start at the header (`mem`), from which the payload pointer
`(u_char *) packet + packet->tp_mac` is computed. -/
structure tpacket3_hdr where
  tp_sec : Nat
  tp_nsec : Nat
  tp_snaplen : Nat
  tp_len : Nat
  tp_mac : Nat
  mem : List Nat
  deriving DecidableEq, Repr

/-- The C `struct timeval`. -/
structure timeval where
  tv_sec : Nat
  tv_usec : Nat
  deriving DecidableEq, Repr

/-- Capture metadata kept in `current_hdr` (`struct pcap_pkthdr`). -/
structure pcap_pkthdr where
  ts : timeval
  caplen : Nat
  len : Nat
  deriving DecidableEq, Repr

/-- The output packet record filled by `pkt->Init(link_type, &ts, caplen, len, data)`. -/
structure Packet where
  link_type : Nat
  ts : timeval
  cap_len : Nat
  len : Nat
  data : List Nat
  deriving DecidableEq, Repr

/-- The statistics block `Stats` (received, bytes_received, link, dropped). -/
structure Stats where
  received : Nat
  bytes_received : Nat
  link : Nat
  dropped : Nat
  deriving DecidableEq, Repr

/-- Bit widths of the unsigned counters. The declarations of `Stats` and of
`num_discarded` are in headers that are not among the sources, so the widths
are a parameter of the embedding. -/
structure CounterWidths where
  received : Nat
  bytes_received : Nat
  link : Nat
  dropped : Nat
  num_discarded : Nat
  deriving DecidableEq, Repr

/-- Unsigned machine arithmetic: the value kept in a counter of `bits` bits. -/
def wrap (bits : Nat) (x : Nat) : Nat := x % 2 ^ bits

/-- The usual widths: `unsigned int` counters and a 64 bit byte counter. -/
def widths32 : CounterWidths :=
  { received := 32, bytes_received := 64, link := 32, dropped := 32, num_discarded := 32 }

/-- The source properties `props`. -/
structure Properties where
  path : String
  is_live : Bool
  netmask : Nat
  selectable_fd : Int
  link_type : Nat
  deriving DecidableEq, Repr

/-- The constant `NETMASK_UNKNOWN`. -/
def NETMASK_UNKNOWN : Nat := 0xffffffff

/-- The constant `DLT_EN10MB` (Ethernet headers). -/
def DLT_EN10MB : Nat := 1

/-- The constant `PACKET_FANOUT_HASH`. -/
def PACKET_FANOUT_HASH : Nat := 0

/-! ## Ring consumer -/

/-- Modelled from the spec: a block of the mapped region (`RX_Ring` is not among
the sources). It has one ownership flag (`filled` is true when the kernel has
filled the block and handed it to the user) and holds zero or more frames. -/
structure Block where
  filled : Bool
  frames : List tpacket3_hdr
  deriving DecidableEq, Repr

/-- Modelled from the spec: the ring consumer `RX_Ring`, which is not among the
sources: the ordered blocks of the mapped region and the cursor
(`currentBlockIndex`, `offsetWithinBlock`), the offset counted in frames. -/
structure RX_Ring where
  blocks : List Block
  currentBlockIndex : Nat
  offsetWithinBlock : Nat
  deriving DecidableEq, Repr

/-- Modelled from the spec: `RX_Ring::GetNextPacket`, which is not among the
sources. It examines the block at `currentBlockIndex`; when that block is not
yet filled by the kernel there is no frame available; otherwise it yields the
frame at `offsetWithinBlock`. It does not advance the cursor. -/
def RX_Ring.GetNextPacket (r : RX_Ring) : Option tpacket3_hdr × RX_Ring :=
  match r.blocks[r.currentBlockIndex]? with
  | none => (none, r)
  | some b => if b.filled then (b.frames[r.offsetWithinBlock]?, r) else (none, r)

/-- Modelled from the spec: `RX_Ring::ReleasePacket`, which is not among the
sources. It advances `offsetWithinBlock` to the next frame of the current block;
when the block has no further frame it marks the block kernel-owned again,
advances `currentBlockIndex` modulo the block count and resets the offset. -/
def RX_Ring.ReleasePacket (r : RX_Ring) : RX_Ring :=
  match r.blocks[r.currentBlockIndex]? with
  | none => r
  | some b =>
    if r.offsetWithinBlock + 1 < b.frames.length then
      { r with offsetWithinBlock := r.offsetWithinBlock + 1 }
    else
      { blocks := r.blocks.set r.currentBlockIndex { b with filled := false }
        currentBlockIndex := (r.currentBlockIndex + 1) % r.blocks.length
        offsetWithinBlock := 0 }

/-! ## Outward effects -/

/-- The default texts handed to `Error` when `errno` is zero, and `strerror(errno)`. -/
inductive ErrMsg where
  | strerror (errno : Nat)
  | unable_to_create_socket
  | unable_to_create_RX_ring
  | unable_to_bind_to_interface
  | unable_enter_promiscious_mode
  | failed_to_join_fanout_group
  | failed_to_configure_hardware_timestamping
  | unable_to_retrieve_statistics
  deriving DecidableEq, Repr

/-- The outward effects of the member functions, in the order they happen. -/
inductive Event where
  | socket (ret : Int)
  | close (fd : Int)
  | newRing (fd : Int) (buffer_size : Nat) (ok : Bool)
  | deleteRing
  | ioctlIfIndex (fd : Int)
  | bind (fd : Int)
  | setsockoptFanout (fd : Int) (fanout_arg : Nat)
  | ioctlHwTstamp (fd : Int)
  | setsockoptTimestamp (fd : Int)
  | getsockoptStatistics (fd : Int)
  | error (msg : ErrMsg)
  | weird_empty_af_packet_header (pkt : Packet)
  | opened (props : Properties)
  | closed
  | getNextPacket
  | releasePacket
  | applyBPFFilter (index : Int) (packet : tpacket3_hdr) (accept : Bool)
  deriving DecidableEq, Repr

/-- The session object `AF_PacketSource`. `rx_ring` is `none` when the pointer
does not designate a live ring consumer: it was never assigned, or the ring it
pointed to has been deleted (no member function resets the pointer). -/
structure AF_PacketSource where
  props : Properties
  socket_fd : Int
  rx_ring : Option RX_Ring
  current_filter : Int
  num_discarded : Nat
  stats : Stats
  current_hdr : pcap_pkthdr
  deriving DecidableEq, Repr

/-- The outcome of running a member function that uses `rx_ring` or loops: it
returns, or it uses `rx_ring` (a call through it, or `delete`) while the pointer
does not designate a live ring consumer, which is undefined behaviour, or the
loop is still running when the fuel is used up (the session and the effects so
far are kept). -/
inductive Run (α : Type) where
  | returned (a : α)
  | deadRing
  | outOfFuel (self : AF_PacketSource) (events : List Event)
  deriving DecidableEq, Repr

/-- The configuration constants read by `Open` (`BifConst::AF_Packet::*`). -/
structure BifConst where
  buffer_size : Nat
  enable_hw_timestamping : Bool
  enable_fanout : Bool
  fanout_id : Nat
  deriving DecidableEq, Repr

/-- The answers of the operating system to the calls made during one `Open`:
the return values of the system calls, the ring the `RX_Ring` constructor
builds (`none` when it throws `RX_RingException`), and `errno` as read when an
error is reported. -/
structure OpenSys where
  socket_ret : Int
  ring : Option RX_Ring
  ioctl_ifindex_ret : Int
  bind_ret : Int
  setsockopt_fanout_ret : Int
  ioctl_hwtstamp_ret : Int
  setsockopt_timestamp_ret : Int
  errno : Nat
  deriving DecidableEq, Repr

/-- The text of `Error(errno ? strerror(errno) : dflt)`. -/
def errText (errno : Nat) (dflt : ErrMsg) : ErrMsg :=
  if errno ≠ 0 then ErrMsg.strerror errno else dflt

/-! ## Member functions -/

/-- The member function `AF_PacketSource::BindInterface`. -/
def BindInterface (sys : OpenSys) (self : AF_PacketSource) : Bool × List Event :=
  if sys.ioctl_ifindex_ret < 0 then
    (false, [Event.ioctlIfIndex self.socket_fd])
  else
    (decide (sys.bind_ret ≥ 0), [Event.ioctlIfIndex self.socket_fd, Event.bind self.socket_fd])

/-- The member function `AF_PacketSource::EnablePromiscMode`. -/
def EnablePromiscMode (_self : AF_PacketSource) : Bool := true

/-- The member function `AF_PacketSource::ConfigureFanoutGroup`. -/
def ConfigureFanoutGroup (sys : OpenSys) (cfg : BifConst) (self : AF_PacketSource)
    (enabled : Bool) : Bool × List Event :=
  if enabled then
    let fanout_id := wrap 32 cfg.fanout_id
    let fanout_arg := fanout_id ||| wrap 32 (PACKET_FANOUT_HASH <<< 16)
    if sys.setsockopt_fanout_ret < 0 then
      (false, [Event.setsockoptFanout self.socket_fd fanout_arg])
    else
      (true, [Event.setsockoptFanout self.socket_fd fanout_arg])
  else
    (true, [])

/-- The member function `AF_PacketSource::ConfigureHWTimestamping`. -/
def ConfigureHWTimestamping (sys : OpenSys) (self : AF_PacketSource)
    (enabled : Bool) : Bool × List Event :=
  if enabled then
    if sys.ioctl_hwtstamp_ret < 0 then
      (false, [Event.ioctlHwTstamp self.socket_fd])
    else if sys.setsockopt_timestamp_ret < 0 then
      (false, [Event.ioctlHwTstamp self.socket_fd, Event.setsockoptTimestamp self.socket_fd])
    else
      (true, [Event.ioctlHwTstamp self.socket_fd, Event.setsockoptTimestamp self.socket_fd])
  else
    (true, [])

/-- The member function `AF_PacketSource::Open`. -/
def Open (sys : OpenSys) (cfg : BifConst) (self : AF_PacketSource) :
    AF_PacketSource × List Event :=
  let buffer_size := cfg.buffer_size
  let enable_hw_timestamping := cfg.enable_hw_timestamping
  let enable_fanout := cfg.enable_fanout
  let self := { self with socket_fd := sys.socket_ret }
  let ev := [Event.socket sys.socket_ret]
  if self.socket_fd < 0 then
    (self, ev ++ [Event.error (errText sys.errno ErrMsg.unable_to_create_socket)])
  else
    match sys.ring with
    | none =>
      (self, ev ++ [Event.newRing self.socket_fd buffer_size false,
                    Event.error (errText sys.errno ErrMsg.unable_to_create_RX_ring),
                    Event.close self.socket_fd])
    | some ring =>
      let self := { self with rx_ring := some ring }
      let ev := ev ++ [Event.newRing self.socket_fd buffer_size true]
      let b := BindInterface sys self
      let ev := ev ++ b.2
      if ! b.1 then
        (self, ev ++ [Event.error (errText sys.errno ErrMsg.unable_to_bind_to_interface),
                      Event.close self.socket_fd])
      else if ! EnablePromiscMode self then
        (self, ev ++ [Event.error (errText sys.errno ErrMsg.unable_enter_promiscious_mode),
                      Event.close self.socket_fd])
      else
        let f := ConfigureFanoutGroup sys cfg self enable_fanout
        let ev := ev ++ f.2
        if ! f.1 then
          (self, ev ++ [Event.error (errText sys.errno ErrMsg.failed_to_join_fanout_group),
                        Event.close self.socket_fd])
        else
          let t := ConfigureHWTimestamping sys self enable_hw_timestamping
          let ev := ev ++ t.2
          if ! t.1 then
            (self, ev ++ [Event.error
                            (errText sys.errno ErrMsg.failed_to_configure_hardware_timestamping),
                          Event.close self.socket_fd])
          else
            let props := { self.props with
                            netmask := NETMASK_UNKNOWN
                            selectable_fd := self.socket_fd
                            is_live := true
                            link_type := DLT_EN10MB }
            let self := { self with props := props, num_discarded := 0 }
            (self, ev ++ [Event.opened props])

/-- The member function `AF_PacketSource::Close`. After `delete rx_ring` the
pointer is left as it is and designates no live ring any more; `delete` on a
pointer that designates no live ring is undefined behaviour. -/
def Close (self : AF_PacketSource) : Run (AF_PacketSource × List Event) :=
  if self.socket_fd = 0 then
    Run.returned (self, [])
  else
    match self.rx_ring with
    | none => Run.deadRing
    | some _ =>
      Run.returned ({ self with rx_ring := none, socket_fd := 0 },
        [Event.deleteRing, Event.close self.socket_fd, Event.closed])

/-- The member function `AF_PacketSource::SetFilter`. -/
def SetFilter (self : AF_PacketSource) (index : Int) : Bool × AF_PacketSource :=
  (true, { self with current_filter := index })

/-- The answer of the kernel to the statistics query of `Statistics`
(`struct tpacket_stats_v3` and the return value of `getsockopt`). -/
structure StatsSys where
  getsockopt_ret : Int
  tp_packets : Nat
  tp_drops : Nat
  errno : Nat
  deriving DecidableEq, Repr

/-- The all-zero statistics block. -/
def Stats.zero : Stats := { received := 0, bytes_received := 0, link := 0, dropped := 0 }

/-- The member function `AF_PacketSource::Statistics`; the first component
is the block written through the output pointer `s`. -/
def Statistics (W : CounterWidths) (sys : StatsSys) (self : AF_PacketSource) (_s : Stats) :
    Stats × AF_PacketSource × List Event :=
  if self.socket_fd = 0 then
    (Stats.zero, self, [])
  else if sys.getsockopt_ret < 0 then
    (Stats.zero, self,
      [Event.getsockoptStatistics self.socket_fd,
       Event.error (errText sys.errno ErrMsg.unable_to_retrieve_statistics)])
  else
    let stats := { self.stats with
                    link := wrap W.link (self.stats.link + sys.tp_packets)
                    dropped := wrap W.dropped (self.stats.dropped + sys.tp_drops) }
    (stats, { self with stats := stats }, [Event.getsockoptStatistics self.socket_fd])

/-- What a call of `ExtractNextPacket` that returns leaves behind: the return
value, the packet record behind `pkt`, the session and the effects. -/
structure Extracted where
  ret : Bool
  pkt : Packet
  self : AF_PacketSource
  events : List Event
  deriving DecidableEq, Repr

/-- The record `pkt` after `pkt->Init(link_type, ts, caplen, len, data)`. -/
def Packet.Init (link_type : Nat) (ts : timeval) (caplen len : Nat) (data : List Nat) : Packet :=
  { link_type := link_type, ts := ts, cap_len := caplen, len := len, data := data }

/-- The capture metadata `ExtractNextPacket` stores in `current_hdr` for a frame. -/
def hdrOf (packet : tpacket3_hdr) : pcap_pkthdr :=
  { ts := { tv_sec := packet.tp_sec, tv_usec := packet.tp_nsec / 1000 }
    caplen := packet.tp_snaplen
    len := packet.tp_len }

/-- The payload pointer `(u_char *) packet + packet->tp_mac`. -/
def dataOf (packet : tpacket3_hdr) : List Nat := packet.mem.drop packet.tp_mac

/-- The `while ( true )` loop of `AF_PacketSource::ExtractNextPacket` followed by
the statements after it; `ApplyBPFFilter` is the filter predicate of the host,
and the first argument bounds the number of iterations. -/
def ExtractNextPacket.loop (W : CounterWidths)
    (ApplyBPFFilter : Int → pcap_pkthdr → List Nat → Bool) :
    Nat → AF_PacketSource → Packet → List Event → Run Extracted
  | 0, self, _, ev => Run.outOfFuel self ev
  | fuel + 1, self, pkt, ev =>
    match self.rx_ring with
    | none => Run.deadRing
    | some ring =>
      let g := ring.GetNextPacket
      let self := { self with rx_ring := some g.2 }
      let ev := ev ++ [Event.getNextPacket]
      match g.1 with
      | none => Run.returned { ret := false, pkt := pkt, self := self, events := ev }
      | some packet =>
        let self := { self with current_hdr := hdrOf packet }
        let data := dataOf packet
        let pkt := Packet.Init self.props.link_type self.current_hdr.ts
          self.current_hdr.caplen self.current_hdr.len data
        if self.current_hdr.len = 0 ∨ self.current_hdr.caplen = 0 then
          Run.returned { ret := false, pkt := pkt, self := self
                         events := ev ++ [Event.weird_empty_af_packet_header pkt] }
        else if ApplyBPFFilter self.current_filter self.current_hdr data then
          let stats := { self.stats with
            received := wrap W.received (self.stats.received + 1)
            bytes_received := wrap W.bytes_received (self.stats.bytes_received + self.current_hdr.len) }
          Run.returned { ret := true, pkt := pkt, self := { self with stats := stats }
                         events := ev ++ [Event.applyBPFFilter self.current_filter packet true] }
        else
          ExtractNextPacket.loop W ApplyBPFFilter fuel
            { self with num_discarded := wrap W.num_discarded (self.num_discarded + 1) } pkt
            (ev ++ [Event.applyBPFFilter self.current_filter packet false])

/-- The member function `AF_PacketSource::ExtractNextPacket`. -/
def ExtractNextPacket (W : CounterWidths) (ApplyBPFFilter : Int → pcap_pkthdr → List Nat → Bool)
    (fuel : Nat) (self : AF_PacketSource) (pkt : Packet) : Run Extracted :=
  if self.socket_fd = 0 then
    Run.returned { ret := false, pkt := pkt, self := self, events := [] }
  else
    ExtractNextPacket.loop W ApplyBPFFilter fuel self pkt []

/-- The member function `AF_PacketSource::DoneWithPacket`. -/
def DoneWithPacket (self : AF_PacketSource) : Run (AF_PacketSource × List Event) :=
  match self.rx_ring with
  | none => Run.deadRing
  | some ring => Run.returned ({ self with rx_ring := some ring.ReleasePacket }, [Event.releasePacket])

/-! ## Drivers -/

/-- The state of the host loop: the number of successful extractions so far,
the session, the packet record and all effects so far. -/
structure HostRun where
  extracted : Nat
  self : AF_PacketSource
  pkt : Packet
  events : List Event
  deriving DecidableEq, Repr

/-- What the kernel, the producer of the ring, does to the mapped region
between two polls of the host. -/
def produce (kernel : RX_Ring → RX_Ring) (self : AF_PacketSource) : AF_PacketSource :=
  { self with rx_ring := self.rx_ring.map kernel }

/-- The host loop of the pipeline: `ExtractNextPacket`, then `DoneWithPacket`
after each success, for at most the given number of rounds; it stops when a call
does not return. Before the poll with `rounds` polls to follow, the kernel has
changed the ring by `kernel rounds`. -/
def hostLoop (W : CounterWidths) (ApplyBPFFilter : Int → pcap_pkthdr → List Nat → Bool)
    (kernel : Nat → RX_Ring → RX_Ring) (fuel : Nat) : Nat → HostRun → HostRun
  | 0, h => h
  | rounds + 1, h =>
    match ExtractNextPacket W ApplyBPFFilter fuel (produce (kernel rounds) h.self) h.pkt with
    | Run.returned x =>
      if x.ret then
        match DoneWithPacket x.self with
        | Run.returned d =>
          hostLoop W ApplyBPFFilter kernel fuel rounds
            { extracted := h.extracted + 1, self := d.1, pkt := x.pkt
              events := h.events ++ x.events ++ d.2 }
        | _ =>
          { extracted := h.extracted + 1, self := x.self, pkt := x.pkt
            events := h.events ++ x.events }
      else
        hostLoop W ApplyBPFFilter kernel fuel rounds
          { h with self := x.self, pkt := x.pkt, events := h.events ++ x.events }
    | _ => { h with self := produce (kernel rounds) h.self }

/-- The kernel leaves the ring alone. -/
def idleKernel : Nat → RX_Ring → RX_Ring := fun _ ring => ring

/-- The kernel hands over, before every poll, one filled block holding the one
frame `f`. -/
def refillKernel (f : tpacket3_hdr) : Nat → RX_Ring → RX_Ring :=
  fun _ _ => { blocks := [{ filled := true, frames := [f] }], currentBlockIndex := 0,
               offsetWithinBlock := 0 }

/-- The frame of an effect that is a filter evaluation returning accept. -/
def acceptedFrame : Event → Option tpacket3_hdr
  | Event.applyBPFFilter _ packet true => some packet
  | _ => none

/-- The frames on which the filter was evaluated and returned accept, read off
the effects. -/
def acceptedFrames (ev : List Event) : List tpacket3_hdr := ev.filterMap acceptedFrame

/-- The counting invariant of the host loop. -/
def Counted (W : CounterWidths) (h : HostRun) : Prop :=
  h.self.stats.received = wrap W.received h.extracted ∧
  h.extracted = (acceptedFrames h.events).length ∧
  h.self.stats.bytes_received =
    wrap W.bytes_received ((acceptedFrames h.events).map tpacket3_hdr.tp_len).sum

/-- Consecutive calls of `ExtractNextPacket` with nothing in between: the return
values, the final packet record and session, and all effects; `none` when a
call does not return. -/
def extractRepeatedly (W : CounterWidths) (ApplyBPFFilter : Int → pcap_pkthdr → List Nat → Bool)
    (fuel : Nat) : Nat → AF_PacketSource → Packet →
    Option (List Bool × Packet × AF_PacketSource × List Event)
  | 0, self, pkt => some ([], pkt, self, [])
  | k + 1, self, pkt =>
    match ExtractNextPacket W ApplyBPFFilter fuel self pkt with
    | Run.returned x =>
      match extractRepeatedly W ApplyBPFFilter fuel k x.self x.pkt with
      | some r => some (x.ret :: r.1, r.2.1, r.2.2.1, x.events ++ r.2.2.2)
      | none => none
    | _ => none

/-- The session is open: the socket handle is not the closed sentinel. -/
def isOpen (self : AF_PacketSource) : Prop := self.socket_fd ≠ 0

instance (self : AF_PacketSource) : Decidable (isOpen self) := by
  unfold isOpen; infer_instance

/-- The states in which `delete rx_ring` in `Close` is not reached or is
defined: the handle is at the sentinel, or the ring pointer designates a live
ring consumer. -/
def CloseDefined (self : AF_PacketSource) : Prop :=
  self.socket_fd = 0 ∨ self.rx_ring.isSome = true

instance (self : AF_PacketSource) : Decidable (CloseDefined self) := by
  unfold CloseDefined; infer_instance

/-- Every step of `Open` succeeds for these answers of the operating system. -/
def OpenSucceeds (sys : OpenSys) (cfg : BifConst) : Prop :=
  0 ≤ sys.socket_ret ∧ sys.ring.isSome = true ∧ 0 ≤ sys.ioctl_ifindex_ret ∧ 0 ≤ sys.bind_ret ∧
  (cfg.enable_fanout = true → 0 ≤ sys.setsockopt_fanout_ret) ∧
  (cfg.enable_hw_timestamping = true →
    0 ≤ sys.ioctl_hwtstamp_ret ∧ 0 ≤ sys.setsockopt_timestamp_ret)

/-- How often an effect occurs in a trace. -/
def occurrences (p : Event → Bool) (ev : List Event) : Nat := (ev.filter p).length

/-! ## Concrete sessions used in the examples -/

/-- An Ethernet frame of 60 bytes, fully captured. -/
def frame60 : tpacket3_hdr :=
  { tp_sec := 1, tp_nsec := 5000, tp_snaplen := 60, tp_len := 60, tp_mac := 2, mem := [0, 0, 7, 7] }

/-- A frame whose captured length is zero. -/
def frameEmpty : tpacket3_hdr :=
  { tp_sec := 1, tp_nsec := 5000, tp_snaplen := 0, tp_len := 60, tp_mac := 2, mem := [0, 0] }

/-- A ring of one kernel-filled block holding the given frames, cursor at its start. -/
def ringOf (frames : List tpacket3_hdr) : RX_Ring :=
  { blocks := [{ filled := true, frames := frames }], currentBlockIndex := 0, offsetWithinBlock := 0 }

/-- A ring of one block that the kernel has not filled yet. -/
def idleRing : RX_Ring :=
  { blocks := [{ filled := false, frames := [] }], currentBlockIndex := 0, offsetWithinBlock := 0 }

/-- The properties of a live source on `eth0`. -/
def props0 : Properties :=
  { path := "eth0", is_live := true, netmask := NETMASK_UNKNOWN, selectable_fd := 3,
    link_type := DLT_EN10MB }

/-- A closed session: the socket handle is at the sentinel and no ring consumer is live. -/
def closedSession : AF_PacketSource :=
  { props := { props0 with netmask := 0, selectable_fd := 0, link_type := 0 }
    socket_fd := 0, rx_ring := none, current_filter := -1, num_discarded := 0
    stats := Stats.zero
    current_hdr := { ts := { tv_sec := 0, tv_usec := 0 }, caplen := 0, len := 0 } }

/-- An open session on socket 3 over the given ring, with zeroed statistics. -/
def openSession (ring : RX_Ring) : AF_PacketSource :=
  { closedSession with props := props0, socket_fd := 3, rx_ring := some ring, current_filter := 0 }

/-- An empty packet record. -/
def pkt0 : Packet :=
  { link_type := 0, ts := { tv_sec := 0, tv_usec := 0 }, cap_len := 0, len := 0, data := [] }

/-- The filter that rejects every frame. -/
def rejectAll : Int → pcap_pkthdr → List Nat → Bool := fun _ _ _ => false

/-- The filter that accepts every frame. -/
def acceptAll : Int → pcap_pkthdr → List Nat → Bool := fun _ _ _ => true

/-- Answers of the operating system with which every step of `Open` succeeds. -/
def sysOk : OpenSys :=
  { socket_ret := 3, ring := some idleRing, ioctl_ifindex_ret := 0, bind_ret := 0,
    setsockopt_fanout_ret := 0, ioctl_hwtstamp_ret := 0, setsockopt_timestamp_ret := 0, errno := 0 }

/-- The configuration used in the examples. -/
def cfg0 : BifConst :=
  { buffer_size := 1048576, enable_hw_timestamping := true, enable_fanout := true, fanout_id := 23 }

/-- Answers of the operating system where the interface cannot be resolved. -/
def sysBindFails : OpenSys := { sysOk with ioctl_ifindex_ret := -1, errno := 19 }

/-- Answers of the operating system where the socket cannot be created. -/
def sysSocketFails : OpenSys := { sysOk with socket_ret := -1, errno := 1 }

/-- Answers of the operating system where the socket is created as descriptor 4
and the `RX_Ring` constructor throws. -/
def sysRingFails : OpenSys := { sysOk with socket_ret := 4, ring := none, errno := 12 }

/-- The session reached from `closedSession` by a successful `Open`. -/
def openedSession : AF_PacketSource := (Open sysOk cfg0 closedSession).1

/-- The session `openedSession` after `Close`: the handle is at the sentinel and
the ring is deleted. -/
def reclosedSession : AF_PacketSource := { openedSession with rx_ring := none, socket_fd := 0 }

/-- An open session with running totals and a discard count that are not zero. -/
def busySession : AF_PacketSource :=
  { openSession idleRing with
      stats := { received := 5, bytes_received := 300, link := 7, dropped := 1 }
      num_discarded := 2 }

/-- The session `busySession` after `Close`. -/
def busyClosedSession : AF_PacketSource := { busySession with rx_ring := none, socket_fd := 0 }

/-- A successful answer of the kernel to the statistics query. -/
def statsSysOk : StatsSys := { getsockopt_ret := 0, tp_packets := 10, tp_drops := 4, errno := 0 }

/-! ## The socket handle after `Open` and `Close` -/

theorem Open_socket_fd (sys : OpenSys) (cfg : BifConst) (self : AF_PacketSource) :
    (Open sys cfg self).1.socket_fd = sys.socket_ret := by
  unfold Open
  simp only []
  split
  · rfl
  · split
    · rfl
    · split
      · rfl
      · split
        · rfl
        · split
          · rfl
          · split <;> rfl

theorem Open_stats (sys : OpenSys) (cfg : BifConst) (self : AF_PacketSource) :
    (Open sys cfg self).1.stats = self.stats := by
  unfold Open
  simp only []
  split
  · rfl
  · split
    · rfl
    · split
      · rfl
      · split
        · rfl
        · split
          · rfl
          · split <;> rfl

theorem Close_closed (self : AF_PacketSource) (h : self.socket_fd = 0) :
    Close self = Run.returned (self, []) := by
  simp [Close, h]

theorem Close_live (self : AF_PacketSource) (h : self.socket_fd ≠ 0)
    (hr : self.rx_ring.isSome = true) :
    Close self = Run.returned ({ self with rx_ring := none, socket_fd := 0 },
      [Event.deleteRing, Event.close self.socket_fd, Event.closed]) := by
  obtain ⟨r, hr⟩ := Option.isSome_iff_exists.mp hr
  simp [Close, h, hr]

theorem Close_dead (self : AF_PacketSource) (h : self.socket_fd ≠ 0) (hr : self.rx_ring = none) :
    Close self = Run.deadRing := by
  simp [Close, h, hr]

/-- Whenever `Close` returns, the handle is at the sentinel, the running totals
are as before, and a second `Close` returns the same session with no effect. -/
theorem Close_returned (self c : AF_PacketSource) (ev : List Event)
    (h : Close self = Run.returned (c, ev)) :
    c.socket_fd = 0 ∧ c.stats = self.stats ∧ Close c = Run.returned (c, []) := by
  unfold Close at h
  split at h
  · rename_i h0
    cases h
    exact ⟨h0, rfl, Close_closed _ h0⟩
  · split at h
    · cases h
    · cases h
      exact ⟨rfl, rfl, Close_closed _ rfl⟩

theorem Close_defined (self : AF_PacketSource) (h : CloseDefined self) :
    ∃ c ev, Close self = Run.returned (c, ev) := by
  by_cases h0 : self.socket_fd = 0
  · exact ⟨_, _, Close_closed self h0⟩
  · rcases h with h | h
    · exact absurd h h0
    · exact ⟨_, _, Close_live self h0 h⟩

theorem Open_num_discarded (sys : OpenSys) (cfg : BifConst) (self : AF_PacketSource)
    (h : OpenSucceeds sys cfg) : (Open sys cfg self).1.num_discarded = 0 := by
  obtain ⟨h1, h2, h3, h4, h5, h6⟩ := h
  obtain ⟨ring, hring⟩ := Option.isSome_iff_exists.mp h2
  have e1 : ¬ sys.socket_ret < 0 := not_lt.mpr h1
  have e3 : ¬ sys.ioctl_ifindex_ret < 0 := not_lt.mpr h3
  cases hf : cfg.enable_fanout <;> cases ht : cfg.enable_hw_timestamping
  · simp [Open, BindInterface, EnablePromiscMode, ConfigureFanoutGroup, ConfigureHWTimestamping,
      hring, e1, e3, h4, hf, ht]
  · have e6 := h6 ht
    have e7 : ¬ sys.ioctl_hwtstamp_ret < 0 := not_lt.mpr e6.1
    have e8 : ¬ sys.setsockopt_timestamp_ret < 0 := not_lt.mpr e6.2
    simp [Open, BindInterface, EnablePromiscMode, ConfigureFanoutGroup, ConfigureHWTimestamping,
      hring, e1, e3, h4, hf, ht, e7, e8]
  · have e5 : ¬ sys.setsockopt_fanout_ret < 0 := not_lt.mpr (h5 hf)
    simp [Open, BindInterface, EnablePromiscMode, ConfigureFanoutGroup, ConfigureHWTimestamping,
      hring, e1, e3, h4, hf, ht, e5]
  · have e5 : ¬ sys.setsockopt_fanout_ret < 0 := not_lt.mpr (h5 hf)
    have e6 := h6 ht
    have e7 : ¬ sys.ioctl_hwtstamp_ret < 0 := not_lt.mpr e6.1
    have e8 : ¬ sys.setsockopt_timestamp_ret < 0 := not_lt.mpr e6.2
    simp [Open, BindInterface, EnablePromiscMode, ConfigureFanoutGroup, ConfigureHWTimestamping,
      hring, e1, e3, h4, hf, ht, e5, e7, e8]

/-! ## Claims on `Open`, `Close` and `Statistics` -/

/-- C1 (evaluation at failing inputs): `Open` on a closed session where the
socket and the ring are created and the interface cannot be resolved. When `Open`
returns the socket handle is 3, not the closed sentinel, the socket was closed
once and the ring consumer was not released; the following `Close` is not a
no-op: it releases the ring and closes socket 3 a second time. Likewise, when
the socket cannot be created the handle is left at -1 and no ring was ever
constructed, so the following `Close` runs `delete` on a pointer that designates
no ring. -/
theorem Open_failure_leaves_handle :
    (Open sysBindFails cfg0 closedSession).2 =
      [Event.socket 3, Event.newRing 3 1048576 true, Event.ioctlIfIndex 3,
       Event.error (ErrMsg.strerror 19), Event.close 3] ∧
    (Open sysBindFails cfg0 closedSession).1.socket_fd = 3 ∧
    isOpen (Open sysBindFails cfg0 closedSession).1 ∧
    Close (Open sysBindFails cfg0 closedSession).1 =
      Run.returned
        ({ (Open sysBindFails cfg0 closedSession).1 with rx_ring := none, socket_fd := 0 },
         [Event.deleteRing, Event.close 3, Event.closed]) ∧
    occurrences (fun e => decide (e = Event.close 3))
      ((Open sysBindFails cfg0 closedSession).2 ++
        [Event.deleteRing, Event.close 3, Event.closed]) = 2 ∧
    (Open sysSocketFails cfg0 closedSession).2 =
      [Event.socket (-1), Event.error (ErrMsg.strerror 1)] ∧
    (Open sysSocketFails cfg0 closedSession).1.socket_fd = -1 ∧
    isOpen (Open sysSocketFails cfg0 closedSession).1 ∧
    (Open sysSocketFails cfg0 closedSession).1.rx_ring = none ∧
    Close (Open sysSocketFails cfg0 closedSession).1 = Run.deadRing := by
  decide

/-- C7 (counterexample): a session is opened with every step succeeding and
closed; the next `Open` creates socket 4 and the ring constructor throws, so
`Open` returns with the handle at 4 and the ring pointer still designating the
ring deleted by the first `Close`. In this state `Close` does not return a
state: it runs `delete rx_ring` on the deleted ring. -/
theorem Close_after_failed_reopen :
    OpenSucceeds sysOk cfg0 ∧
    Close openedSession =
      Run.returned (reclosedSession, [Event.deleteRing, Event.close 3, Event.closed]) ∧
    (Open sysRingFails cfg0 reclosedSession).1.socket_fd = 4 ∧
    (Open sysRingFails cfg0 reclosedSession).1.rx_ring = none ∧
    Close (Open sysRingFails cfg0 reclosedSession).1 = Run.deadRing ∧
    ¬ ∃ c ev, Close (Open sysRingFails cfg0 reclosedSession).1 = Run.returned (c, ev) := by
  refine ⟨?_, by decide, by decide, by decide, by decide, ?_⟩
  · unfold OpenSucceeds
    decide
  · rintro ⟨c, ev, h⟩
    have hd : Close (Open sysRingFails cfg0 reclosedSession).1 = Run.deadRing := by decide
    rw [hd] at h
    cases h

/-- C7 (amended): `Close` is idempotent on every session state whose handle is
at the closed sentinel or whose ring pointer designates a live ring consumer:
`Close` returns, a second `Close` returns the same state and has no effect at
all (no ring released, no socket closed, no "closed" report); on a closed
session the first `Close` is a no-op as well, and on an open session the first
`Close` releases the ring consumer once, closes the socket once and reports
"closed" once, in this order, and leaves the handle at the closed sentinel. -/
theorem Close_idempotent (self : AF_PacketSource) (hdef : CloseDefined self) :
    ∃ c ev, Close self = Run.returned (c, ev) ∧ Close c = Run.returned (c, []) ∧
      c.socket_fd = 0 ∧
      (¬ isOpen self → c = self ∧ ev = []) ∧
      (isOpen self →
        c = { self with rx_ring := none, socket_fd := 0 } ∧
        ev = [Event.deleteRing, Event.close self.socket_fd, Event.closed] ∧
        occurrences (fun e => decide (e = Event.deleteRing)) ev = 1 ∧
        occurrences (fun e => decide (e = Event.close self.socket_fd)) ev = 1 ∧
        occurrences (fun e => decide (e = Event.closed)) ev = 1) := by
  by_cases h0 : self.socket_fd = 0
  · refine ⟨self, [], Close_closed self h0, Close_closed self h0, h0, fun _ => ⟨rfl, rfl⟩, ?_⟩
    intro h
    exact absurd h0 h
  · have hr : self.rx_ring.isSome = true := by
      rcases hdef with h | h
      · exact absurd h h0
      · exact h
    refine ⟨_, _, Close_live self h0 hr, Close_closed _ rfl, rfl, ?_, ?_⟩
    · intro h
      exact (h h0).elim
    · intro _
      refine ⟨rfl, rfl, ?_, ?_, ?_⟩ <;> simp [occurrences, List.filter]

/-- Witness for the amended C7 on the open session `busySession`. -/
theorem Close_idempotent_witness :
    CloseDefined busySession ∧ isOpen busySession ∧
    Close busySession =
      Run.returned (busyClosedSession, [Event.deleteRing, Event.close 3, Event.closed]) ∧
    Close busyClosedSession = Run.returned (busyClosedSession, []) ∧
    ∃ c ev, Close busySession = Run.returned (c, ev) ∧ Close c = Run.returned (c, []) ∧
      c.socket_fd = 0 :=
  ⟨by decide, by decide, by decide, by decide,
    (Close_idempotent busySession (by decide)).imp fun _ hc =>
      hc.imp fun _ he => ⟨he.1, he.2.1, he.2.2.1⟩⟩

/-- C8: on a closed session `Statistics` writes 0 into all four output
counters, makes no kernel query, reports no error (it has no effect at all) and
leaves the session unchanged; this holds in particular for the session that
`Close` returns, whatever its running totals were, and `Close` keeps these
totals. -/
theorem Statistics_closed (W : CounterWidths) (sys : StatsSys) (self : AF_PacketSource) (s : Stats) :
    (¬ isOpen self →
      Statistics W sys self s =
        ({ received := 0, bytes_received := 0, link := 0, dropped := 0 }, self, [])) ∧
    (∀ c ev, Close self = Run.returned (c, ev) →
      Statistics W sys c s =
        ({ received := 0, bytes_received := 0, link := 0, dropped := 0 }, c, []) ∧
      c.stats = self.stats) ∧
    (CloseDefined self → ∃ c ev, Close self = Run.returned (c, ev) ∧
      Statistics W sys c s =
        ({ received := 0, bytes_received := 0, link := 0, dropped := 0 }, c, []) ∧
      c.stats = self.stats) := by
  have key : ∀ c ev, Close self = Run.returned (c, ev) →
      Statistics W sys c s =
        ({ received := 0, bytes_received := 0, link := 0, dropped := 0 }, c, []) ∧
      c.stats = self.stats := by
    intro c ev hc
    obtain ⟨h1, h2, _⟩ := Close_returned self c ev hc
    exact ⟨by simp [Statistics, h1, Stats.zero], h2⟩
  refine ⟨?_, key, ?_⟩
  · intro h
    have h0 : self.socket_fd = 0 := not_not.mp h
    simp [Statistics, h0, Stats.zero]
  · intro hdef
    obtain ⟨c, ev, hc⟩ := Close_defined self hdef
    exact ⟨c, ev, hc, key c ev hc⟩

/-- Witness for C8: the session `busySession` after `Close` keeps its totals
5, 300, 7, 1 and `Statistics` reports zeros. -/
theorem Statistics_closed_witness :
    Close busySession =
      Run.returned (busyClosedSession, [Event.deleteRing, Event.close 3, Event.closed]) ∧
    ¬ isOpen busyClosedSession ∧
    busyClosedSession.stats = { received := 5, bytes_received := 300, link := 7, dropped := 1 } ∧
    Statistics widths32 statsSysOk busyClosedSession busySession.stats =
      ({ received := 0, bytes_received := 0, link := 0, dropped := 0 }, busyClosedSession, []) :=
  ⟨by decide, by decide, by decide,
    (Statistics_closed widths32 statsSysOk busyClosedSession busySession.stats).1 (by decide)⟩

/-- C9: on an open session with a successful kernel query returning `p`
packets and `q` drops, `Statistics` leaves the received and byte totals
unchanged, sets the running link counter to `l + p` and the running dropped
counter to `d + q` modulo the counter widths, changes nothing else in the
session, and the snapshot written through the output pointer equals the updated
running totals. -/
theorem Statistics_open (W : CounterWidths) (sys : StatsSys) (self : AF_PacketSource) (s : Stats)
    (hopen : isOpen self) (hq : 0 ≤ sys.getsockopt_ret) :
    (Statistics W sys self s).2.1.stats.received = self.stats.received ∧
    (Statistics W sys self s).2.1.stats.bytes_received = self.stats.bytes_received ∧
    (Statistics W sys self s).2.1.stats.link = (self.stats.link + sys.tp_packets) % 2 ^ W.link ∧
    (Statistics W sys self s).2.1.stats.dropped =
      (self.stats.dropped + sys.tp_drops) % 2 ^ W.dropped ∧
    (Statistics W sys self s).1 = (Statistics W sys self s).2.1.stats ∧
    (Statistics W sys self s).2.1 = { self with stats := (Statistics W sys self s).1 } ∧
    (Statistics W sys self s).2.2 = [Event.getsockoptStatistics self.socket_fd] := by
  have h0 : ¬ self.socket_fd = 0 := hopen
  have h1 : ¬ sys.getsockopt_ret < 0 := not_lt.mpr hq
  simp [Statistics, h0, h1, wrap]

/-- Witness for C9 on `busySession` with 10 packets and 4 drops reported. -/
theorem Statistics_open_witness :
    isOpen busySession ∧ 0 ≤ statsSysOk.getsockopt_ret ∧
    (Statistics widths32 statsSysOk busySession Stats.zero).2.1.stats.link = (7 + 10) % 2 ^ 32 ∧
    (Statistics widths32 statsSysOk busySession Stats.zero).2.1.stats.dropped = (1 + 4) % 2 ^ 32 :=
  ⟨by decide, by decide,
    (Statistics_open widths32 statsSysOk busySession Stats.zero (by decide) (by decide)).2.2.1,
    (Statistics_open widths32 statsSysOk busySession Stats.zero (by decide) (by decide)).2.2.2.1⟩

/-- C10 (counterexample): `busySession` has the running totals 5, 300, 7, 1; it is
closed and opened again with every step succeeding; when the second `Open`
returns the discard counter is zero and the running totals are still 5, 300, 7, 1. -/
theorem reopen_keeps_stats_counterexample :
    isOpen busySession ∧ OpenSucceeds sysOk cfg0 ∧
    Close busySession =
      Run.returned (busyClosedSession, [Event.deleteRing, Event.close 3, Event.closed]) ∧
    (Open sysOk cfg0 busyClosedSession).1.num_discarded = 0 ∧
    (Open sysOk cfg0 busyClosedSession).1.stats =
      { received := 5, bytes_received := 300, link := 7, dropped := 1 } ∧
    (Open sysOk cfg0 busyClosedSession).1.stats.received ≠ 0 ∧
    (Open sysOk cfg0 busyClosedSession).1.stats.bytes_received ≠ 0 ∧
    (Open sysOk cfg0 busyClosedSession).1.stats.link ≠ 0 ∧
    (Open sysOk cfg0 busyClosedSession).1.stats.dropped ≠ 0 := by
  refine ⟨by decide, ?_, by decide, by decide, by decide, by decide, by decide, by decide,
    by decide⟩
  unfold OpenSucceeds
  decide

/-- C10 (amended): when a session is closed and then opened again with every
step succeeding, the discard counter is zero when the second `Open` returns and
the four running counters have the values they had before the `Close`. This
holds for the session any returning `Close` leaves, and `Close` returns on
every session whose handle is at the sentinel or whose ring is live. -/
theorem reopen_keeps_stats (sys : OpenSys) (cfg : BifConst) (self : AF_PacketSource)
    (h : OpenSucceeds sys cfg) :
    (∀ c ev, Close self = Run.returned (c, ev) →
      (Open sys cfg c).1.num_discarded = 0 ∧ (Open sys cfg c).1.stats = self.stats) ∧
    (CloseDefined self → ∃ c ev, Close self = Run.returned (c, ev) ∧
      (Open sys cfg c).1.num_discarded = 0 ∧ (Open sys cfg c).1.stats = self.stats) := by
  have key : ∀ c ev, Close self = Run.returned (c, ev) →
      (Open sys cfg c).1.num_discarded = 0 ∧ (Open sys cfg c).1.stats = self.stats := by
    intro c ev hc
    exact ⟨Open_num_discarded sys cfg c h, by rw [Open_stats, (Close_returned self c ev hc).2.1]⟩
  refine ⟨key, ?_⟩
  intro hdef
  obtain ⟨c, ev, hc⟩ := Close_defined self hdef
  exact ⟨c, ev, hc, key c ev hc⟩

/-- Witness for the amended C10 on `busySession`. -/
theorem reopen_keeps_stats_witness :
    OpenSucceeds sysOk cfg0 ∧
    Close busySession =
      Run.returned (busyClosedSession, [Event.deleteRing, Event.close 3, Event.closed]) ∧
    (Open sysOk cfg0 busyClosedSession).1.num_discarded = 0 ∧
    (Open sysOk cfg0 busyClosedSession).1.stats = busySession.stats :=
  have h : OpenSucceeds sysOk cfg0 := by unfold OpenSucceeds; decide
  ⟨h, by decide,
    (reopen_keeps_stats sysOk cfg0 busySession h).1 busyClosedSession
      [Event.deleteRing, Event.close 3, Event.closed] (by decide)⟩

/-! ## The extraction loop -/

theorem GetNextPacket_snd (r : RX_Ring) : r.GetNextPacket.2 = r := by
  unfold RX_Ring.GetNextPacket
  split
  · rfl
  · split <;> rfl

theorem wrap_wrap_add (bits a b : Nat) : wrap bits (wrap bits a + b) = wrap bits (a + b) := by
  unfold wrap
  exact Nat.mod_add_mod a _ b

/-- While the frame under the cursor is well-formed and rejected by the filter,
the loop of `ExtractNextPacket` does not return: whatever the fuel, it is still
running, the ring is as it was, nothing was released, and the discard counter
has been incremented once per iteration. -/
theorem loop_rejected_runs_on (W : CounterWidths)
    (F : Int → pcap_pkthdr → List Nat → Bool) (r : RX_Ring) (f : tpacket3_hdr)
    (hg : r.GetNextPacket.1 = some f) (hl : f.tp_len ≠ 0) (hc : f.tp_snaplen ≠ 0) :
    ∀ (fuel : Nat) (self : AF_PacketSource) (pkt : Packet) (ev : List Event),
      self.rx_ring = some r → F self.current_filter (hdrOf f) (dataOf f) = false →
      Event.releasePacket ∉ ev →
      ∃ s ev2, ExtractNextPacket.loop W F fuel self pkt ev = Run.outOfFuel s ev2 ∧
        s.rx_ring = some r ∧ s.stats = self.stats ∧ Event.releasePacket ∉ ev2 ∧
        wrap W.num_discarded s.num_discarded = wrap W.num_discarded (self.num_discarded + fuel) := by
  intro fuel
  induction fuel with
  | zero =>
    intro self pkt ev hr _ hev
    exact ⟨self, ev, rfl, hr, rfl, hev, rfl⟩
  | succ n ih =>
    intro self pkt ev hr hF hev
    have hstep : ExtractNextPacket.loop W F (n + 1) self pkt ev =
        ExtractNextPacket.loop W F n
          { self with rx_ring := some r, current_hdr := hdrOf f,
                      num_discarded := wrap W.num_discarded (self.num_discarded + 1) }
          (Packet.Init self.props.link_type (hdrOf f).ts (hdrOf f).caplen (hdrOf f).len (dataOf f))
          (ev ++ [Event.getNextPacket] ++ [Event.applyBPFFilter self.current_filter f false]) := by
      rw [ExtractNextPacket.loop]
      simp [hr, hg, GetNextPacket_snd, hdrOf, hl, hc]
      intro h
      simp [hdrOf] at hF
      rw [hF] at h
      exact absurd h (by decide)
    rw [hstep]
    obtain ⟨s, ev2, h1, h2, h3, h4, h5⟩ := ih
      { self with rx_ring := some r, current_hdr := hdrOf f,
                  num_discarded := wrap W.num_discarded (self.num_discarded + 1) }
      (Packet.Init self.props.link_type (hdrOf f).ts (hdrOf f).caplen (hdrOf f).len (dataOf f))
      (ev ++ [Event.getNextPacket] ++ [Event.applyBPFFilter self.current_filter f false])
      rfl hF (by simp [hev])
    refine ⟨s, ev2, h1, h2, h3, h4, ?_⟩
    rw [h5]
    simp only []
    rw [wrap_wrap_add, Nat.add_assoc, Nat.add_comm 1 n]

theorem ExtractNextPacket_idle_once (W : CounterWidths)
    (F : Int → pcap_pkthdr → List Nat → Bool) (fuel : Nat) (self : AF_PacketSource)
    (pkt : Packet) (r : RX_Ring) (hopen : isOpen self) (hr : self.rx_ring = some r)
    (hg : r.GetNextPacket.1 = none) :
    ExtractNextPacket W F (fuel + 1) self pkt =
      Run.returned { ret := false, pkt := pkt, self := self, events := [Event.getNextPacket] } := by
  have h0 : ¬ self.socket_fd = 0 := hopen
  cases self
  simp only [] at hr h0
  subst hr
  simp [ExtractNextPacket, ExtractNextPacket.loop, h0, hg, GetNextPacket_snd]

theorem ExtractNextPacket_accept (W : CounterWidths)
    (F : Int → pcap_pkthdr → List Nat → Bool) (fuel : Nat) (self : AF_PacketSource)
    (pkt : Packet) (r : RX_Ring) (f : tpacket3_hdr)
    (hopen : isOpen self) (hr : self.rx_ring = some r) (hg : r.GetNextPacket.1 = some f)
    (hl : f.tp_len ≠ 0) (hc : f.tp_snaplen ≠ 0)
    (hF : F self.current_filter (hdrOf f) (dataOf f) = true) :
    ExtractNextPacket W F (fuel + 1) self pkt =
      Run.returned
        { ret := true
          pkt := Packet.Init self.props.link_type (hdrOf f).ts f.tp_snaplen f.tp_len (dataOf f)
          self := { self with
                      current_hdr := hdrOf f
                      stats := { self.stats with
                        received := wrap W.received (self.stats.received + 1)
                        bytes_received := wrap W.bytes_received (self.stats.bytes_received + f.tp_len) } }
          events := [Event.getNextPacket, Event.applyBPFFilter self.current_filter f true] } := by
  have h0 : ¬ self.socket_fd = 0 := hopen
  cases self
  simp only [] at hr h0 hF
  subst hr
  simp only [hdrOf] at hF
  simp [ExtractNextPacket, ExtractNextPacket.loop, h0, hg, GetNextPacket_snd, hdrOf, hl, hc, hF]

theorem ExtractNextPacket_rejected (W : CounterWidths)
    (F : Int → pcap_pkthdr → List Nat → Bool) (fuel : Nat) (self : AF_PacketSource)
    (pkt : Packet) (r : RX_Ring) (f : tpacket3_hdr)
    (hopen : isOpen self) (hr : self.rx_ring = some r) (hg : r.GetNextPacket.1 = some f)
    (hl : f.tp_len ≠ 0) (hc : f.tp_snaplen ≠ 0)
    (hF : F self.current_filter (hdrOf f) (dataOf f) = false) (x : Extracted) :
    ExtractNextPacket W F fuel self pkt ≠ Run.returned x := by
  have h0 : ¬ self.socket_fd = 0 := hopen
  obtain ⟨s, ev, h1, _⟩ :=
    loop_rejected_runs_on W F r f hg hl hc fuel self pkt [] hr hF (by simp)
  intro h
  simp only [ExtractNextPacket, h0, if_false] at h
  rw [h1] at h
  cases h

theorem ExtractNextPacket_weird_once (W : CounterWidths)
    (F : Int → pcap_pkthdr → List Nat → Bool) (fuel : Nat) (self : AF_PacketSource)
    (pkt : Packet) (r : RX_Ring) (f : tpacket3_hdr)
    (hopen : isOpen self) (hr : self.rx_ring = some r) (hg : r.GetNextPacket.1 = some f)
    (hz : f.tp_len = 0 ∨ f.tp_snaplen = 0) :
    ExtractNextPacket W F (fuel + 1) self pkt =
      Run.returned
        { ret := false
          pkt := { link_type := self.props.link_type
                   ts := { tv_sec := f.tp_sec, tv_usec := f.tp_nsec / 1000 }
                   cap_len := f.tp_snaplen, len := f.tp_len, data := f.mem.drop f.tp_mac }
          self := { self with current_hdr := hdrOf f }
          events := [Event.getNextPacket,
                     Event.weird_empty_af_packet_header
                       { link_type := self.props.link_type
                         ts := { tv_sec := f.tp_sec, tv_usec := f.tp_nsec / 1000 }
                         cap_len := f.tp_snaplen, len := f.tp_len, data := f.mem.drop f.tp_mac }] } := by
  have h0 : ¬ self.socket_fd = 0 := hopen
  cases self
  simp only [] at hr h0
  subst hr
  simp [ExtractNextPacket, ExtractNextPacket.loop, h0, hg, GetNextPacket_snd, hdrOf, hz,
    Packet.Init, dataOf]

/-! ## Claims on `ExtractNextPacket` and `DoneWithPacket` -/

/-- C2 (evaluation at the failing input): an open session over a ring of one
kernel-filled block holding one well-formed frame, with a filter that rejects
it. The code has no release on the rejection path, so with a ring whose cursor
advances only on release no amount of fuel makes `ExtractNextPacket` return: it
is still looping, the ring is untouched (the frame is not released, the block
not returned), and the discard counter has been incremented once per iteration
rather than once per frame. -/
theorem ExtractNextPacket_rejected_never_returns :
    ∀ fuel : Nat, ∃ s ev,
      ExtractNextPacket widths32 rejectAll fuel (openSession (ringOf [frame60])) pkt0 =
        Run.outOfFuel s ev ∧
      s.rx_ring = some (ringOf [frame60]) ∧ s.stats = Stats.zero ∧
      Event.releasePacket ∉ ev ∧ s.num_discarded % 2 ^ 32 = fuel % 2 ^ 32 := by
  intro fuel
  have h := loop_rejected_runs_on widths32 rejectAll (ringOf [frame60]) frame60
    (by decide) (by decide) (by decide) fuel (openSession (ringOf [frame60])) pkt0 []
    rfl rfl (by simp)
  obtain ⟨s, ev, h1, h2, h3, h4, h5⟩ := h
  refine ⟨s, ev, ?_, h2, h3, h4, ?_⟩
  · rw [← h1]
    rfl
  · have h6 : wrap 32 s.num_discarded = wrap 32 (0 + fuel) := h5
    simpa [wrap] using h6

/-- C5: when the next ring frame has original length 0 or captured length 0, a
call of `ExtractNextPacket` on an open session pulls that one frame, initialises
the packet record from it, reports exactly one anomaly against that record and
returns false, without evaluating the filter; the session differs from the one
before only in `current_hdr`, so the received, byte and discard counters are
unchanged. -/
theorem ExtractNextPacket_degenerate (W : CounterWidths)
    (F : Int → pcap_pkthdr → List Nat → Bool) (fuel : Nat) (self : AF_PacketSource)
    (pkt : Packet) (r : RX_Ring) (f : tpacket3_hdr)
    (hopen : isOpen self) (hr : self.rx_ring = some r) (hg : r.GetNextPacket.1 = some f)
    (hz : f.tp_len = 0 ∨ f.tp_snaplen = 0) :
    ExtractNextPacket W F (fuel + 1) self pkt =
      Run.returned
        { ret := false
          pkt := { link_type := self.props.link_type
                   ts := { tv_sec := f.tp_sec, tv_usec := f.tp_nsec / 1000 }
                   cap_len := f.tp_snaplen, len := f.tp_len, data := f.mem.drop f.tp_mac }
          self := { self with current_hdr := hdrOf f }
          events := [Event.getNextPacket,
                     Event.weird_empty_af_packet_header
                       { link_type := self.props.link_type
                         ts := { tv_sec := f.tp_sec, tv_usec := f.tp_nsec / 1000 }
                         cap_len := f.tp_snaplen, len := f.tp_len, data := f.mem.drop f.tp_mac }] } :=
  ExtractNextPacket_weird_once W F fuel self pkt r f hopen hr hg hz

/-- Witness for C5 on a ring whose next frame has captured length 0. -/
theorem ExtractNextPacket_degenerate_witness :
    isOpen (openSession (ringOf [frameEmpty, frame60])) ∧
    ExtractNextPacket widths32 acceptAll 1 (openSession (ringOf [frameEmpty, frame60])) pkt0 =
      Run.returned
        { ret := false
          pkt := { link_type := 1, ts := { tv_sec := 1, tv_usec := 5 }, cap_len := 0, len := 60,
                   data := [] }
          self := { openSession (ringOf [frameEmpty, frame60]) with current_hdr := hdrOf frameEmpty }
          events := [Event.getNextPacket,
                     Event.weird_empty_af_packet_header
                       { link_type := 1, ts := { tv_sec := 1, tv_usec := 5 }, cap_len := 0,
                         len := 60, data := [] }] } :=
  ⟨by decide,
    ExtractNextPacket_degenerate widths32 acceptAll 0 (openSession (ringOf [frameEmpty, frame60]))
      pkt0 (ringOf [frameEmpty, frame60]) frameEmpty (by decide) rfl (by decide) (by decide)⟩

/-- C6: on an open session whose ring reports no frame available, `k`
consecutive calls of `ExtractNextPacket` all return false and leave the packet
record and the whole session (received, byte and discard counters, the active
filter index, the ring and its cursor) exactly as they were; the only effect of
each call is the one query of the ring, so no anomaly and no error is reported. -/
theorem ExtractNextPacket_idle (W : CounterWidths)
    (F : Int → pcap_pkthdr → List Nat → Bool) (fuel k : Nat) (self : AF_PacketSource)
    (pkt : Packet) (r : RX_Ring) (hopen : isOpen self) (hr : self.rx_ring = some r)
    (hg : r.GetNextPacket.1 = none) :
    extractRepeatedly W F (fuel + 1) k self pkt =
      some (List.replicate k false, pkt, self, List.replicate k Event.getNextPacket) := by
  induction k with
  | zero => rfl
  | succ n ih =>
    rw [extractRepeatedly, ExtractNextPacket_idle_once W F fuel self pkt r hopen hr hg]
    simp only []
    rw [ih]
    rfl

/-- Witness for C6: three calls on an open session over an idle ring. -/
theorem ExtractNextPacket_idle_witness :
    isOpen (openSession idleRing) ∧
    extractRepeatedly widths32 acceptAll 1 3 (openSession idleRing) pkt0 =
      some ([false, false, false], pkt0, openSession idleRing,
            [Event.getNextPacket, Event.getNextPacket, Event.getNextPacket]) :=
  ⟨by decide,
    ExtractNextPacket_idle widths32 acceptAll 0 3 (openSession idleRing) pkt0 idleRing
      (by decide) rfl (by decide)⟩

/-- C4: on an open session a successful `ExtractNextPacket` performs no
`ReleasePacket`; afterwards the ring and its cursor are as before the call and
the cursor designates the frame that was returned; a second `ExtractNextPacket`
before `DoneWithPacket` succeeds on that same frame and again leaves the ring as
it was; and `DoneWithPacket` performs exactly one `ReleasePacket`, which is its
only effect and the only change to the session. -/
theorem release_only_by_DoneWithPacket (W : CounterWidths)
    (F : Int → pcap_pkthdr → List Nat → Bool) (fuel fuel2 : Nat) (self : AF_PacketSource)
    (pkt : Packet) (r : RX_Ring) (x : Extracted)
    (hopen : isOpen self) (hr : self.rx_ring = some r)
    (hx : ExtractNextPacket W F fuel self pkt = Run.returned x) (hret : x.ret = true) :
    Event.releasePacket ∉ x.events ∧
    x.self.rx_ring = some r ∧
    (∃ f, r.GetNextPacket.1 = some f ∧ x.self.current_hdr = hdrOf f ∧
      x.pkt = Packet.Init self.props.link_type (hdrOf f).ts f.tp_snaplen f.tp_len (dataOf f) ∧
      ∃ y, ExtractNextPacket W F (fuel2 + 1) x.self x.pkt = Run.returned y ∧ y.ret = true ∧
        y.pkt = x.pkt ∧ y.self.current_hdr = hdrOf f ∧ y.self.rx_ring = some r ∧
        Event.releasePacket ∉ y.events) ∧
    DoneWithPacket x.self =
      Run.returned ({ x.self with rx_ring := some r.ReleasePacket }, [Event.releasePacket]) := by
  have h0 : ¬ self.socket_fd = 0 := hopen
  cases fuel with
  | zero =>
    simp [ExtractNextPacket, ExtractNextPacket.loop, h0] at hx
  | succ n =>
    cases hg : r.GetNextPacket.1 with
    | none =>
      rw [ExtractNextPacket_idle_once W F n self pkt r hopen hr hg] at hx
      cases hx
      cases hret
    | some f =>
      by_cases hz : f.tp_len = 0 ∨ f.tp_snaplen = 0
      · rw [ExtractNextPacket_weird_once W F n self pkt r f hopen hr hg hz] at hx
        cases hx
        cases hret
      · have hl : f.tp_len ≠ 0 := fun h => hz (Or.inl h)
        have hc : f.tp_snaplen ≠ 0 := fun h => hz (Or.inr h)
        cases hF : F self.current_filter (hdrOf f) (dataOf f) with
        | false =>
          exact absurd hx (ExtractNextPacket_rejected W F (n + 1) self pkt r f hopen hr hg hl hc hF x)
        | true =>
          rw [ExtractNextPacket_accept W F n self pkt r f hopen hr hg hl hc hF] at hx
          cases hx
          refine ⟨by simp, hr, ⟨f, rfl, rfl, rfl, ?_⟩, ?_⟩
          · refine ⟨_, ExtractNextPacket_accept W F fuel2 _ _ r f hopen hr hg hl hc hF, rfl, ?_,
              rfl, hr, by simp⟩
            rfl
          · simp [DoneWithPacket, hr]

/-- Witness for C4 on an open session whose ring holds two accepted frames. -/
theorem release_only_by_DoneWithPacket_witness :
    isOpen (openSession (ringOf [frame60, frame60])) ∧
    (∃ x, ExtractNextPacket widths32 acceptAll 1 (openSession (ringOf [frame60, frame60])) pkt0 =
        Run.returned x ∧ x.ret = true ∧
      Event.releasePacket ∉ x.events ∧ x.self.rx_ring = some (ringOf [frame60, frame60]) ∧
      DoneWithPacket x.self =
        Run.returned ({ x.self with rx_ring := some (ringOf [frame60, frame60]).ReleasePacket },
          [Event.releasePacket])) :=
  ⟨by decide,
    { ret := true
      pkt := Packet.Init 1 ⟨1, 5⟩ 60 60 [7, 7]
      self := { openSession (ringOf [frame60, frame60]) with
                  current_hdr := hdrOf frame60
                  stats := { Stats.zero with received := 1, bytes_received := 60 } }
      events := [Event.getNextPacket, Event.applyBPFFilter 0 frame60 true] },
    by decide, rfl,
    (release_only_by_DoneWithPacket widths32 acceptAll 1 0 (openSession (ringOf [frame60, frame60]))
      pkt0 (ringOf [frame60, frame60]) _ (by decide) rfl (by decide) rfl).1,
    (release_only_by_DoneWithPacket widths32 acceptAll 1 0 (openSession (ringOf [frame60, frame60]))
      pkt0 (ringOf [frame60, frame60]) _ (by decide) rfl (by decide) rfl).2.1,
    (release_only_by_DoneWithPacket widths32 acceptAll 1 0 (openSession (ringOf [frame60, frame60]))
      pkt0 (ringOf [frame60, frame60]) _ (by decide) rfl (by decide) rfl).2.2.2⟩

/-! ## Counting in the host loop -/

theorem acceptedFrames_append (a b : List Event) :
    acceptedFrames (a ++ b) = acceptedFrames a ++ acceptedFrames b := by
  unfold acceptedFrames
  exact List.filterMap_append a b acceptedFrame

/-- What a returning run of the loop of `ExtractNextPacket` has counted: on
success one more accepted frame, one more frame received and the original length
of that frame more bytes; otherwise no accepted frame and the same totals. -/
theorem loop_returned_counts (W : CounterWidths) (F : Int → pcap_pkthdr → List Nat → Bool) :
    ∀ (fuel : Nat) (self : AF_PacketSource) (pkt : Packet) (ev : List Event) (x : Extracted),
      ExtractNextPacket.loop W F fuel self pkt ev = Run.returned x →
      (x.ret = true → ∃ f, acceptedFrames x.events = acceptedFrames ev ++ [f] ∧
        x.self.stats.received = wrap W.received (self.stats.received + 1) ∧
        x.self.stats.bytes_received = wrap W.bytes_received (self.stats.bytes_received + f.tp_len)) ∧
      (x.ret = false → acceptedFrames x.events = acceptedFrames ev ∧ x.self.stats = self.stats) := by
  intro fuel
  induction fuel with
  | zero =>
    intro self pkt ev x h
    simp [ExtractNextPacket.loop] at h
  | succ n ih =>
    intro self pkt ev x h
    rw [ExtractNextPacket.loop] at h
    cases hr : self.rx_ring with
    | none => simp [hr] at h
    | some r =>
      simp only [hr] at h
      cases hg : r.GetNextPacket.1 with
      | none =>
        simp only [hg] at h
        cases h
        simp [acceptedFrames_append, acceptedFrames, acceptedFrame]
      | some f =>
        simp only [hg] at h
        split at h
        · cases h
          simp [acceptedFrames_append, acceptedFrames, acceptedFrame]
        · split at h
          · cases h
            refine ⟨fun _ => ⟨f, ?_, rfl, rfl⟩, fun hf => by cases hf⟩
            simp [acceptedFrames_append, acceptedFrames, acceptedFrame]
          · have h2 := ih _ _ _ x h
            simpa [acceptedFrames_append, acceptedFrames, acceptedFrame] using h2

theorem ExtractNextPacket_returned_counts (W : CounterWidths)
    (F : Int → pcap_pkthdr → List Nat → Bool) (fuel : Nat) (self : AF_PacketSource)
    (pkt : Packet) (x : Extracted)
    (h : ExtractNextPacket W F fuel self pkt = Run.returned x) :
    (x.ret = true → ∃ f, acceptedFrames x.events = [f] ∧
      x.self.stats.received = wrap W.received (self.stats.received + 1) ∧
      x.self.stats.bytes_received = wrap W.bytes_received (self.stats.bytes_received + f.tp_len)) ∧
    (x.ret = false → acceptedFrames x.events = [] ∧ x.self.stats = self.stats) := by
  unfold ExtractNextPacket at h
  split at h
  · cases h
    exact ⟨fun hf => Bool.noConfusion hf, fun _ => ⟨rfl, rfl⟩⟩
  · have h2 := loop_returned_counts W F fuel self pkt [] x h
    simpa [acceptedFrames] using h2

theorem hostLoop_Counted (W : CounterWidths) (F : Int → pcap_pkthdr → List Nat → Bool)
    (kernel : Nat → RX_Ring → RX_Ring) (fuel : Nat) : ∀ (rounds : Nat) (h : HostRun),
      Counted W h → Counted W (hostLoop W F kernel fuel rounds h) := by
  intro rounds
  induction rounds with
  | zero => intro h hc; exact hc
  | succ n ih =>
    intro h hc
    obtain ⟨c1, c2, c3⟩ := hc
    rw [hostLoop]
    cases hx : ExtractNextPacket W F fuel (produce (kernel n) h.self) h.pkt with
    | deadRing => exact ⟨c1, c2, c3⟩
    | outOfFuel s ev => exact ⟨c1, c2, c3⟩
    | returned x =>
      have hcount := ExtractNextPacket_returned_counts W F fuel _ h.pkt x hx
      have hs : (produce (kernel n) h.self).stats = h.self.stats := rfl
      rw [hs] at hcount
      simp only []
      cases hret : x.ret with
      | false =>
        obtain ⟨e1, e2⟩ := hcount.2 hret
        simp only [Bool.false_eq_true, if_false]
        apply ih
        refine ⟨?_, ?_, ?_⟩
        · simp only [e2]; exact c1
        · simp only [acceptedFrames_append, e1, List.append_nil]; exact c2
        · simp only [acceptedFrames_append, e1, List.append_nil, e2]; exact c3
      | true =>
        obtain ⟨f, e1, e2, e3⟩ := hcount.1 hret
        have k1 : x.self.stats.received = wrap W.received (h.extracted + 1) := by
          rw [e2, c1, wrap_wrap_add]
        have k2 : h.extracted + 1 = (acceptedFrames (h.events ++ x.events)).length := by
          simp [acceptedFrames_append, e1, c2]
        have k3 : x.self.stats.bytes_received = wrap W.bytes_received
            ((acceptedFrames (h.events ++ x.events)).map tpacket3_hdr.tp_len).sum := by
          rw [e3, c3, wrap_wrap_add]
          simp [acceptedFrames_append, e1]
        simp only [if_true]
        cases hd : DoneWithPacket x.self with
        | deadRing => exact ⟨k1, k2, k3⟩
        | outOfFuel s ev => exact ⟨k1, k2, k3⟩
        | returned d =>
          simp only []
          apply ih
          unfold DoneWithPacket at hd
          split at hd
          · cases hd
          · cases hd
            refine ⟨k1, ?_, ?_⟩
            · simpa [acceptedFrames_append, acceptedFrames, acceptedFrame] using k2
            · simpa [acceptedFrames_append, acceptedFrames, acceptedFrame] using k3

/-- The frames a returning run of the loop reports as accepted are frames on
which the filter of the active index returned accept, and the active index is
not changed. -/
theorem loop_returned_accepted (W : CounterWidths) (F : Int → pcap_pkthdr → List Nat → Bool) :
    ∀ (fuel : Nat) (self : AF_PacketSource) (pkt : Packet) (ev : List Event) (x : Extracted),
      ExtractNextPacket.loop W F fuel self pkt ev = Run.returned x →
      (∀ f ∈ acceptedFrames ev, F self.current_filter (hdrOf f) (dataOf f) = true) →
      x.self.current_filter = self.current_filter ∧
      ∀ f ∈ acceptedFrames x.events, F self.current_filter (hdrOf f) (dataOf f) = true := by
  intro fuel
  induction fuel with
  | zero =>
    intro self pkt ev x h
    simp [ExtractNextPacket.loop] at h
  | succ n ih =>
    intro self pkt ev x h hev
    rw [ExtractNextPacket.loop] at h
    cases hr : self.rx_ring with
    | none => simp [hr] at h
    | some r =>
      simp only [hr] at h
      cases hg : r.GetNextPacket.1 with
      | none =>
        simp only [hg] at h
        cases h
        refine ⟨rfl, ?_⟩
        simpa [acceptedFrames_append, acceptedFrames, acceptedFrame] using hev
      | some f =>
        simp only [hg] at h
        split at h
        · cases h
          refine ⟨rfl, ?_⟩
          simpa [acceptedFrames_append, acceptedFrames, acceptedFrame] using hev
        · split at h
          · rename_i hacc
            cases h
            refine ⟨rfl, ?_⟩
            intro g hgm
            simp only [acceptedFrames_append, List.mem_append] at hgm
            rcases hgm with hgm | hgm
            · rcases hgm with hgm | hgm
              · exact hev g hgm
              · simp [acceptedFrames, acceptedFrame] at hgm
            · simp [acceptedFrames, acceptedFrame] at hgm
              subst hgm
              exact hacc
          · have h2 := ih _ _ _ x h
            simp only [acceptedFrames_append] at h2
            refine h2 ?_
            intro g hgm
            simp only [List.mem_append] at hgm
            rcases hgm with hgm | hgm
            · rcases hgm with hgm | hgm
              · exact hev g hgm
              · simp [acceptedFrames, acceptedFrame] at hgm
            · simp [acceptedFrames, acceptedFrame] at hgm

theorem hostLoop_accepted (W : CounterWidths) (F : Int → pcap_pkthdr → List Nat → Bool)
    (kernel : Nat → RX_Ring → RX_Ring) (fuel : Nat) (c : Int) :
    ∀ (rounds : Nat) (h : HostRun), h.self.current_filter = c →
      (∀ f ∈ acceptedFrames h.events, F c (hdrOf f) (dataOf f) = true) →
      ∀ f ∈ acceptedFrames (hostLoop W F kernel fuel rounds h).events,
        F c (hdrOf f) (dataOf f) = true := by
  intro rounds
  induction rounds with
  | zero => intro h _ hev; exact hev
  | succ n ih =>
    intro h hc hev
    rw [hostLoop]
    cases hx : ExtractNextPacket W F fuel (produce (kernel n) h.self) h.pkt with
    | deadRing => exact hev
    | outOfFuel s ev => exact hev
    | returned x =>
      have hc2 : (produce (kernel n) h.self).current_filter = c := hc
      have hacc : x.self.current_filter = c ∧
          ∀ f ∈ acceptedFrames x.events, F c (hdrOf f) (dataOf f) = true := by
        unfold ExtractNextPacket at hx
        split at hx
        · cases hx
          exact ⟨hc2, by simp [acceptedFrames]⟩
        · have h2 := loop_returned_accepted W F fuel _ h.pkt [] x hx
            (by simp [acceptedFrames])
          rw [hc2] at h2
          exact h2
      have hall : ∀ f ∈ acceptedFrames (h.events ++ x.events), F c (hdrOf f) (dataOf f) = true := by
        intro g hgm
        simp only [acceptedFrames_append, List.mem_append] at hgm
        rcases hgm with hgm | hgm
        · exact hev g hgm
        · exact hacc.2 g hgm
      simp only []
      cases hret : x.ret with
      | false =>
        simp only [Bool.false_eq_true, if_false]
        exact ih _ hacc.1 hall
      | true =>
        simp only [if_true]
        cases hd : DoneWithPacket x.self with
        | deadRing => exact hall
        | outOfFuel s ev => exact hall
        | returned d =>
          simp only []
          unfold DoneWithPacket at hd
          split at hd
          · cases hd
          · cases hd
            apply ih _ hacc.1
            intro g hgm
            simp only [acceptedFrames_append, List.mem_append] at hgm
            rcases hgm with hgm | hgm
            · exact hall g (by simpa [acceptedFrames_append] using hgm)
            · simp [acceptedFrames, acceptedFrame] at hgm

theorem isOpen_openSession (ring : RX_Ring) : isOpen (openSession ring) := by
  show (3 : Int) ≠ 0
  decide

/-- When the kernel hands over a fresh block with one well-formed frame before
every poll and the filter accepts that frame, every round of the host loop on an
open session with a live ring is a successful extraction. -/
theorem hostLoop_refill (W : CounterWidths) (F : Int → pcap_pkthdr → List Nat → Bool)
    (fuel : Nat) (f : tpacket3_hdr) (hl : f.tp_len ≠ 0) (hc : f.tp_snaplen ≠ 0) :
    ∀ (k : Nat) (h : HostRun), isOpen h.self → h.self.rx_ring.isSome = true →
      F h.self.current_filter (hdrOf f) (dataOf f) = true →
      (hostLoop W F (refillKernel f) (fuel + 1) k h).extracted = h.extracted + k := by
  intro k
  induction k with
  | zero => intro h _ _ _; rfl
  | succ k ih =>
    intro h hopen hr hF
    obtain ⟨r, hr⟩ := Option.isSome_iff_exists.mp hr
    have hp : (produce (refillKernel f k) h.self).rx_ring = some (ringOf [f]) := by
      simp [produce, hr, refillKernel, ringOf]
    have hg : (ringOf [f]).GetNextPacket.1 = some f := by
      simp [RX_Ring.GetNextPacket, ringOf]
    rw [hostLoop, ExtractNextPacket_accept W F fuel (produce (refillKernel f k) h.self) h.pkt _ f
      hopen hp hg hl hc hF]
    simp only [if_true, DoneWithPacket, hp]
    refine (ih _ ?_ ?_ ?_).trans ?_
    · exact hopen
    · rfl
    · exact hF
    · simp only []
      omega

theorem hostLoop_refill_counts (W : CounterWidths) (n : Nat) (f : tpacket3_hdr)
    (hl : f.tp_len ≠ 0) (hc : f.tp_snaplen ≠ 0) :
    (hostLoop W acceptAll (refillKernel f) 1 n
      { extracted := 0, self := openSession (ringOf [f]), pkt := pkt0, events := [] }).extracted
        = n ∧
    (hostLoop W acceptAll (refillKernel f) 1 n
      { extracted := 0, self := openSession (ringOf [f]), pkt := pkt0,
        events := [] }).self.stats.received = wrap W.received n := by
  have h1 := hostLoop_refill W acceptAll 0 f hl hc n
    { extracted := 0, self := openSession (ringOf [f]), pkt := pkt0, events := [] }
    (isOpen_openSession _) rfl rfl
  have h2 := hostLoop_Counted W acceptAll (refillKernel f) 1 n
    { extracted := 0, self := openSession (ringOf [f]), pkt := pkt0, events := [] }
    ⟨by show 0 = 0 % 2 ^ W.received; simp, rfl, by show 0 = 0 % 2 ^ W.bytes_received; simp⟩
  have h3 : (hostLoop W acceptAll (refillKernel f) 1 n
      { extracted := 0, self := openSession (ringOf [f]), pkt := pkt0,
        events := [] }).extracted = n := by
    rw [show (0 + 1 : Nat) = 1 from rfl] at h1
    rw [h1]
    simp
  refine ⟨h3, ?_⟩
  rw [h2.1, h3]

/-! ## Claim on the counters of the host loop -/

/-- C3 (counterexample): with 32 bit frame counters, an open session with zeroed
statistics whose ring is handed a well-formed frame of 60 bytes before every
poll, with a filter that accepts every frame, driven by the host loop for 2^32
rounds: the number of successful extractions is 2^32 and `framesReceived` is 0. -/
theorem hostLoop_received_wraps :
    (openSession (ringOf [frame60])).stats = Stats.zero ∧
    (hostLoop widths32 acceptAll (refillKernel frame60) 1 (2 ^ 32)
      { extracted := 0, self := openSession (ringOf [frame60]), pkt := pkt0,
        events := [] }).extracted = 2 ^ 32 ∧
    (hostLoop widths32 acceptAll (refillKernel frame60) 1 (2 ^ 32)
      { extracted := 0, self := openSession (ringOf [frame60]), pkt := pkt0,
        events := [] }).self.stats.received = 0 ∧
    (hostLoop widths32 acceptAll (refillKernel frame60) 1 (2 ^ 32)
      { extracted := 0, self := openSession (ringOf [frame60]), pkt := pkt0,
        events := [] }).self.stats.received ≠
    (hostLoop widths32 acceptAll (refillKernel frame60) 1 (2 ^ 32)
      { extracted := 0, self := openSession (ringOf [frame60]), pkt := pkt0,
        events := [] }).extracted := by
  have h := hostLoop_refill_counts widths32 (2 ^ 32) frame60 (by decide) (by decide)
  have h0 : wrap widths32.received (2 ^ 32) = 0 := Nat.mod_self (2 ^ 32)
  refine ⟨rfl, h.1, ?_, ?_⟩
  · rw [h.2, h0]
  · rw [h.2, h0, h.1]
    exact Nat.ne_of_lt (Nat.pow_pos (by decide))

/-- C3 (amended): for every session with zeroed statistics, every filter, every
ring and every activity of the kernel on it, after any number of rounds of the
host loop (`ExtractNextPacket`, then `DoneWithPacket` after each success) with
`N` successful extractions so far: `N` is the number of frames on which the
filter was evaluated and returned accept, each of them a frame the filter of the
active index accepts, `framesReceived` equals `N` modulo the width of the frame
counter and `bytesReceived` equals the sum of the original lengths `tp_len` of
those frames modulo the width of the byte counter; so they equal `N` and the sum
as long as these fit the counters. -/
theorem hostLoop_counts (W : CounterWidths) (F : Int → pcap_pkthdr → List Nat → Bool)
    (kernel : Nat → RX_Ring → RX_Ring) (fuel rounds : Nat) (self : AF_PacketSource)
    (pkt : Packet) (hz : self.stats = Stats.zero) :
    (hostLoop W F kernel fuel rounds ⟨0, self, pkt, []⟩).extracted =
      (acceptedFrames (hostLoop W F kernel fuel rounds ⟨0, self, pkt, []⟩).events).length ∧
    (∀ f ∈ acceptedFrames (hostLoop W F kernel fuel rounds ⟨0, self, pkt, []⟩).events,
      F self.current_filter (hdrOf f) (dataOf f) = true) ∧
    (hostLoop W F kernel fuel rounds ⟨0, self, pkt, []⟩).self.stats.received =
      (hostLoop W F kernel fuel rounds ⟨0, self, pkt, []⟩).extracted % 2 ^ W.received ∧
    (hostLoop W F kernel fuel rounds ⟨0, self, pkt, []⟩).self.stats.bytes_received =
      ((acceptedFrames (hostLoop W F kernel fuel rounds ⟨0, self, pkt, []⟩).events).map
        tpacket3_hdr.tp_len).sum % 2 ^ W.bytes_received ∧
    ((hostLoop W F kernel fuel rounds ⟨0, self, pkt, []⟩).extracted < 2 ^ W.received →
      (hostLoop W F kernel fuel rounds ⟨0, self, pkt, []⟩).self.stats.received =
        (hostLoop W F kernel fuel rounds ⟨0, self, pkt, []⟩).extracted) ∧
    (((acceptedFrames (hostLoop W F kernel fuel rounds ⟨0, self, pkt, []⟩).events).map
        tpacket3_hdr.tp_len).sum < 2 ^ W.bytes_received →
      (hostLoop W F kernel fuel rounds ⟨0, self, pkt, []⟩).self.stats.bytes_received =
        ((acceptedFrames (hostLoop W F kernel fuel rounds ⟨0, self, pkt, []⟩).events).map
          tpacket3_hdr.tp_len).sum) := by
  have hc : Counted W ⟨0, self, pkt, []⟩ := by
    refine ⟨?_, rfl, ?_⟩
    · show self.stats.received = 0 % 2 ^ W.received
      rw [hz]; simp [Stats.zero]
    · show self.stats.bytes_received = 0 % 2 ^ W.bytes_received
      rw [hz]; simp [Stats.zero]
  obtain ⟨c1, c2, c3⟩ := hostLoop_Counted W F kernel fuel rounds ⟨0, self, pkt, []⟩ hc
  have ha := hostLoop_accepted W F kernel fuel self.current_filter rounds ⟨0, self, pkt, []⟩ rfl
    (by simp [acceptedFrames])
  refine ⟨c2, ha, c1, c3, ?_, ?_⟩
  · intro hlt
    rw [c1]
    exact Nat.mod_eq_of_lt hlt
  · intro hlt
    rw [c3]
    exact Nat.mod_eq_of_lt hlt

/-- Witness for the amended C3: three rounds over a ring of two accepted frames
of 60 bytes that the kernel leaves alone; two extractions, 120 bytes. -/
theorem hostLoop_counts_witness :
    (openSession (ringOf [frame60, frame60])).stats = Stats.zero ∧
    (hostLoop widths32 acceptAll idleKernel 1 3
      ⟨0, openSession (ringOf [frame60, frame60]), pkt0, []⟩).extracted = 2 ∧
    (hostLoop widths32 acceptAll idleKernel 1 3
      ⟨0, openSession (ringOf [frame60, frame60]), pkt0, []⟩).self.stats.received =
      (hostLoop widths32 acceptAll idleKernel 1 3
        ⟨0, openSession (ringOf [frame60, frame60]), pkt0, []⟩).extracted % 2 ^ 32 ∧
    (hostLoop widths32 acceptAll idleKernel 1 3
      ⟨0, openSession (ringOf [frame60, frame60]), pkt0, []⟩).self.stats.bytes_received =
      ((acceptedFrames (hostLoop widths32 acceptAll idleKernel 1 3
        ⟨0, openSession (ringOf [frame60, frame60]), pkt0, []⟩).events).map
          tpacket3_hdr.tp_len).sum % 2 ^ 64 ∧
    (hostLoop widths32 acceptAll idleKernel 1 3
      ⟨0, openSession (ringOf [frame60, frame60]), pkt0, []⟩).self.stats.bytes_received = 120 :=
  ⟨rfl, by decide,
    (hostLoop_counts widths32 acceptAll idleKernel 1 3 (openSession (ringOf [frame60, frame60]))
      pkt0 rfl).2.2.1,
    (hostLoop_counts widths32 acceptAll idleKernel 1 3 (openSession (ringOf [frame60, frame60]))
      pkt0 rfl).2.2.2.1,
    by decide⟩

end AFPacket
